import Mathlib

/-!
Shallow embedding of the Lebanese_stats basketball statistics application
(Django project; files `stats/models.py`, `stats/views.py`, `stats/ai_client.py`,
`stats/management/commands/import_players.py`).

Python floats are modelled as rationals (`ℚ`); cell values coming out of the
spreadsheet reader are modelled by the `Cell` type (`null` covers both `None`
and pandas `NaN`); the database is a pair of a team-name list and a player-row
list; Django querysets are modelled as lists, with `order_by` rendered as a
stable insertion sort on the corresponding descending key.
-/

set_option maxRecDepth 10000

section LebStatsDevelopment

attribute [local semireducible] Rat.add Rat.sub Rat.mul Rat.inv

namespace LebStats

/-- A spreadsheet cell / Python value reaching the importer helpers:
`null` models both Python `None` and a pandas `NaN` float, `num` a finite
int/float, `str` a string. -/
inductive Cell where
  | null
  | num (q : ℚ)
  | str (s : String)
deriving DecidableEq, Repr

/-- Python truthiness test `not v` combined with the importer's NaN check:
`None`/`NaN`, the number `0` and the empty string are the falsy cells. -/
def cellFalsy : Cell → Bool
  | .null => true
  | .num q => decide (q = 0)
  | .str s => s.data.isEmpty

/-- Python `str.strip()` (ASCII whitespace). -/
def pyStrip (s : String) : String :=
  String.mk (((s.data.dropWhile Char.isWhitespace).reverse.dropWhile Char.isWhitespace).reverse)

/-- Python `str.lower()` (ASCII letters). -/
def pyLower (s : String) : String := String.mk (s.data.map Char.toLower)

/-- Python `str.title()`: the first letter of each alphabetic run is
uppercased, the following letters lowercased. -/
def pyTitle (s : String) : String :=
  String.mk (s.data.foldl
    (fun (acc : List Char × Bool) c =>
      let c' := if c.isAlpha then (if acc.2 then c.toLower else c.toUpper) else c
      (acc.1 ++ [c'], c.isAlpha))
    ([], false)).1

/-- Decimal value of a digit list (most significant first). -/
def digitsToNat (cs : List Char) : ℕ :=
  cs.foldl (fun n c => 10 * n + (c.toNat - 48)) 0

/-- Model of Python `float(str)` restricted to finite decimal literals:
optional sign, then `digits`, `digits.digits`, `digits.` or `.digits`.
Exponent notation and the special values `inf`/`nan` are outside the model
(the importer claims never depend on them). -/
def pyFloatCore (cs : List Char) : Option ℚ :=
  let sc : ℚ × List Char :=
    match cs with
    | '-' :: t => (-1, t)
    | '+' :: t => (1, t)
    | _ => (1, cs)
  let ip := (sc.2.span Char.isDigit).1
  let rest := (sc.2.span Char.isDigit).2
  match rest with
  | [] => if ip.isEmpty then none else some (sc.1 * (digitsToNat ip : ℚ))
  | '.' :: fp =>
    if fp.all Char.isDigit && !(ip.isEmpty && fp.isEmpty) then
      some (sc.1 * ((digitsToNat ip : ℚ) + (digitsToNat fp : ℚ) / (10 ^ fp.length : ℚ)))
    else none
  | _ => none

/-- Python `float(s)` on a raw string (Python itself tolerates surrounding
whitespace). -/
def pyFloatStr (s : String) : Option ℚ := pyFloatCore (pyStrip s).data

/-- `as_float` from `import_players.py`: `None`/`NaN` give the default, a
number is returned as-is, a string is stripped, commas become dots, then
parsed as a float, any failure giving the default. -/
def as_float (v : Cell) (d : ℚ) : ℚ :=
  match v with
  | .null => d
  | .num q => q
  | .str s =>
    match pyFloatCore ((pyStrip s).data.map (fun c => if c = ',' then '.' else c)) with
    | some q => q
    | none => d

/-- Python `int(float)`: truncation toward zero. -/
def truncQ (q : ℚ) : ℤ := q.num.tdiv (q.den : ℤ)

/-- The regex `-?\d+(\.\d+)?` used by `as_int`, applied with `fullmatch`. -/
def intLitMatch (cs : List Char) : Bool :=
  let cs' := match cs with | '-' :: t => t | _ => cs
  let ip := (cs'.span Char.isDigit).1
  let rest := (cs'.span Char.isDigit).2
  !ip.isEmpty &&
    (match rest with
     | [] => true
     | '.' :: fp => !fp.isEmpty && fp.all Char.isDigit
     | _ => false)

/-- `as_int` from `import_players.py`: `None`/`NaN` give the default, a
number is truncated toward zero, a string is stripped and accepted only when
it fully matches the decimal regex, otherwise the default is returned. -/
def as_int (v : Cell) (d : ℤ) : ℤ :=
  match v with
  | .null => d
  | .num q => truncQ q
  | .str s =>
    let t := pyStrip s
    if intLitMatch t.data then
      match pyFloatCore t.data with
      | some q => truncQ q
      | none => d
    else d

/-- String rendering of a cell, as Python `str()` would show it: `NaN`
prints as `nan`, an integral float as `d.0`, a terminating decimal with its
digits; a non-terminating rational (unreachable from spreadsheet floats) is
kept as a fraction. -/
def decRepr (q : ℚ) : String :=
  let sgn := if q < 0 then "-" else ""
  let n := q.num.natAbs
  let d := q.den
  if d = 1 then sgn ++ toString n ++ ".0"
  else
    match (List.range 30).find? (fun k => (n * 10 ^ k) % d = 0) with
    | some k =>
      let m := n * 10 ^ k / d
      let fp := toString (m % 10 ^ k)
      let pad := String.mk (List.replicate (k - fp.length) '0')
      sgn ++ toString (m / 10 ^ k) ++ "." ++ pad ++ fp
    | none => sgn ++ toString n ++ "/" ++ toString d

/-- Python `str(v)` for a cell. -/
def cellStr : Cell → String
  | .null => "nan"
  | .num q => decRepr q
  | .str s => s

/-- `NAME_KEYS` from `import_players.py`. -/
def NAME_KEYS : List String := ["player", "players", "name", "player name", "full name"]

/-- `_clean_header` from `import_players.py`: `str(v).strip().lower()`. -/
def cleanLabel (s : String) : String := pyLower (pyStrip s)

/-- `_clean_header` applied to a raw cell. -/
def clean_header (c : Cell) : String := cleanLabel (cellStr c)

/-- Whether a raw row contains a cell whose cleaned text is a name key. -/
def rowHasNameKey (row : List Cell) : Bool :=
  row.any (fun c => NAME_KEYS.contains (clean_header c))

/-- The scanning loop of `find_header_row`: walk rows with positional fuel
`min 10 (number of rows)`, returning the first index whose row carries a
name-column label. -/
def findHdrAux : List (List Cell) → ℕ → ℕ → Option ℕ
  | [], _, _ => none
  | _, 0, _ => none
  | r :: rs, fuel + 1, i =>
    if rowHasNameKey r then some i else findHdrAux rs fuel (i + 1)

/-- `find_header_row` from `import_players.py`: scan at most the first
`min(10, len(df))` raw rows; the first row containing a recognised name
label wins; otherwise row 0. -/
def find_header_row (df : List (List Cell)) : ℕ :=
  (findHdrAux df (min 10 df.length) 0).getD 0

/-- `pct01` from `import_players.py`: lenient float parse with default 0,
divide by 100 when the value exceeds 1, then clamp into `[0,1]`. -/
def pct01 (v : Cell) : ℚ :=
  let f := as_float v 0
  let f' := if 1 < f then f / 100 else f
  max 0 (min 1 f')

/-- `norm_pos` from `import_players.py`: falsy values default to `Guard`;
otherwise the stripped, title-cased text is kept only when it is one of the
three canonical single-word positions. -/
def norm_pos (v : Cell) : String :=
  if cellFalsy v then "Guard"
  else
    let t := pyTitle (pyStrip (cellStr v))
    if ["Guard", "Forward", "Center"].contains t then t else "Guard"

/-- A `Player` row (`stats/models.py`). The importer always fills every
numeric column, so the per-game statistics are plain rationals here; the two
shooting percentages stay optional because the schema allows `NULL` and the
league-leader queries filter on that. The owning team is identified by its
name. -/
structure Player where
  teamName : String
  name : String
  number : ℤ
  position : String
  games : ℤ
  minutes_per_game : ℚ
  points_per_game : ℚ
  rebounds_per_game : ℚ
  assists_per_game : ℚ
  steals_per_game : ℚ
  blocks_per_game : ℚ
  rating : ℚ
  fouls_per_game : ℚ
  turnovers_per_game : ℚ
  two_points_pct : Option ℚ
  three_points_pct : Option ℚ
deriving DecidableEq, Repr

/-- Banker's rounding of `10 * q` to an integer, matching Python's `:.1f`
format step on exact values. -/
def round10even (q : ℚ) : ℤ :=
  let x := 10 * q
  let f := x.floor
  let r := x - (f : ℚ)
  if r < 1 / 2 then f else if 1 / 2 < r then f + 1 else if f % 2 = 0 then f else f + 1

/-- Python `f"{q:.1f}"` on an exact value: one decimal digit, ties to even. -/
def fmt1 (q : ℚ) : String :=
  let n := round10even q
  (if n < 0 then "-" else "") ++ toString (n.natAbs / 10) ++ "." ++ toString (n.natAbs % 10)

/-- `_avg` from `ai_client.py`: drop `None`, then mean, `0.0` on empty. -/
def avgOpt (seq : List (Option ℚ)) : ℚ :=
  let s := seq.filterMap id
  if s.length = 0 then 0 else s.sum / (s.length : ℚ)

/-- One comparison step of Python `max(..., key=key)`: the candidate
replaces the current best only when strictly greater. -/
def maxStep (key : Player → ℚ) (b x : Player) : Player :=
  if key b < key x then x else b

/-- Python `max(l, key=key)` for a nonempty list: strictly greater replaces,
so the first element attaining the maximum wins ties. The default is only
returned for `[]`, which the caller in `_fallback_report` never passes. -/
def pyMaxKey (key : Player → ℚ) (l : List Player) (dflt : Player) : Player :=
  match l with
  | [] => dflt
  | a :: t => t.foldl (maxStep key) a

/-- The "active" subset of `_fallback_report`: players with positive minutes
or positive points, the whole roster when that subset is empty. -/
def fallbackActive (players : List Player) : List Player :=
  let active := players.filter
    (fun p => decide (0 < p.minutes_per_game) || decide (0 < p.points_per_game))
  if active.isEmpty then players else active

/-- The sentence template rendered by `_fallback_report` for a nonempty
roster. -/
def renderFallback (teamName : String) (tp tr ta : Player) (ap ar aa : ℚ) : String :=
  teamName ++ " lean on " ++ tp.name ++ " for scoring (" ++ fmt1 tp.points_per_game ++
    " ppg), " ++ tr.name ++ " on the boards (" ++ fmt1 tr.rebounds_per_game ++
    " rpg), and " ++ ta.name ++ " for playmaking (" ++ fmt1 ta.assists_per_game ++
    " apg). Across their active rotation they average roughly " ++ fmt1 ap ++
    " points, " ++ fmt1 ar ++ " rebounds, and " ++ fmt1 aa ++ " assists per game."

/-- `_fallback_report` from `ai_client.py`. -/
def fallback_report (teamName : String) (players : List Player) : String :=
  match players with
  | [] => "No player statistics available yet for " ++ teamName ++ "."
  | p0 :: rest =>
    let ps := p0 :: rest
    let active := fallbackActive ps
    let top_pts := pyMaxKey (fun p => p.points_per_game) active p0
    let top_reb := pyMaxKey (fun p => p.rebounds_per_game) active p0
    let top_ast := pyMaxKey (fun p => p.assists_per_game) active p0
    let avg_pts := avgOpt (active.map (fun p => some p.points_per_game))
    let avg_reb := avgOpt (active.map (fun p => some p.rebounds_per_game))
    let avg_ast := avgOpt (active.map (fun p => some p.assists_per_game))
    renderFallback teamName top_pts top_reb top_ast avg_pts avg_reb avg_ast

/-- The external-service environment of `generate_team_report`: the
configured credential (the empty string models an unset/falsy
`OPENAI_API_KEY`) and the outcome of the one-shot external call, which
either raises (`error`) or yields a text. -/
structure Env where
  apiKey : String
  callResult : Except Unit String

/-- `generate_team_report` from `ai_client.py`: no credential, a raised
exception, or blank returned text all fall back to the deterministic
generator; otherwise the stripped external text is returned. -/
def generate_team_report (env : Env) (teamName : String) (players : List Player) : String :=
  if env.apiKey = "" then fallback_report teamName players
  else
    match env.callResult with
    | .error _ => fallback_report teamName players
    | .ok t =>
      let t' := pyStrip t
      if t' = "" then fallback_report teamName players else t'

/-- Descending comparison on one key, used to model Django's
`order_by("-field")`. -/
def descBy (key : Player → ℚ) (p q : Player) : Prop := key q ≤ key p

instance (key : Player → ℚ) : DecidableRel (descBy key) :=
  fun a b => inferInstanceAs (Decidable (key b ≤ key a))

instance (key : Player → ℚ) : IsTotal Player (descBy key) :=
  ⟨fun a b => le_total (key b) (key a)⟩

instance (key : Player → ℚ) : IsTrans Player (descBy key) :=
  ⟨fun _ _ _ h1 h2 => le_trans h2 h1⟩

/-- Model of a queryset ordered descending by one key (a stable sort). -/
def sortDescBy (key : Player → ℚ) (l : List Player) : List Player :=
  List.insertionSort (descBy key) l

/-- `build_scouting_report` from `stats/views.py` (the richer local
variant). Aggregate `Sum`/`Avg` over the always-populated float columns are
list sum and mean. -/
def build_scouting_report (teamName : String) (players : List Player) : String :=
  match players with
  | [] => "No player data is available yet for " ++ teamName ++ "."
  | p0 :: _ =>
    let best_scorer := (sortDescBy (fun p => p.points_per_game) players).headD p0
    let best_rebounder := (sortDescBy (fun p => p.rebounds_per_game) players).headD p0
    let assist_leader := (sortDescBy (fun p => p.assists_per_game) players).headD p0
    let team_pts := (players.map (fun p => p.points_per_game)).sum
    let team_reb := (players.map (fun p => p.rebounds_per_game)).sum
    let avg_rating := (players.map (fun p => p.rating)).sum / (players.length : ℚ)
    let tempo_phrase :=
      if 80 ≤ team_pts then "an up-tempo, offense-first" else "a more half-court oriented"
    let glass_phrase :=
      if 40 ≤ team_reb then "strong on the boards" else "vulnerable on the boards"
    teamName ++ " lean heavily on " ++ best_scorer.name ++ " (" ++
      fmt1 best_scorer.points_per_game ++ " PPG) as their primary scoring option, while " ++
      best_rebounder.name ++ " anchors the paint with " ++
      fmt1 best_rebounder.rebounds_per_game ++ " rebounds per game. " ++
      assist_leader.name ++ " runs the offense and averages " ++
      fmt1 assist_leader.assists_per_game ++
      " assists, keeping teammates involved. As a group, the team scores around " ++
      fmt1 team_pts ++ " points and collects " ++ fmt1 team_reb ++
      " rebounds per game, with an average efficiency rating of " ++ fmt1 avg_rating ++
      ". This profile points to " ++ tempo_phrase ++ " squad that is " ++ glass_phrase ++
      ". To slow them down, opponents should limit early touches for " ++
      best_scorer.name ++ ", keep " ++ best_rebounder.name ++
      " off the glass, and force the ball out of " ++ assist_leader.name ++
      "\x27s hands late in possessions."

/-- League shooting leader for two-point percentage (`team_list` in
`views.py`): exclude rows whose field is `NULL`, order descending, take the
first. -/
def best_two_pct (players : List Player) : Option Player :=
  (sortDescBy (fun p => p.two_points_pct.getD 0)
    (players.filter (fun p => p.two_points_pct.isSome))).head?

/-- League shooting leader for three-point percentage (`team_list` in
`views.py`). -/
def best_three_pct (players : List Player) : Option Player :=
  (sortDescBy (fun p => p.three_points_pct.getD 0)
    (players.filter (fun p => p.three_points_pct.isSome))).head?

/-- The raw GET parameters read by `player_search` in `views.py`; `none`
models an absent request parameter. -/
structure Query where
  team_id : Option String := none
  position : Option String := none
  min_points : Option String := none
  min_rebounds : Option String := none
  min_assists : Option String := none
  min_minutes : Option String := none
  min_rating : Option String := none
  max_fouls : Option String := none
  min_two_pt : Option String := none
  min_three_pt : Option String := none

/-- `get_float` from `player_search`: absent or empty input gives `None`,
as does an unparseable float. -/
def get_float (v : Option String) : Option ℚ :=
  match v with
  | none => none
  | some s => if s = "" then none else pyFloatStr s

/-- The ordering of `player_search`: `order_by("-rating",
"-points_per_game")`. -/
def searchLE (p q : Player) : Prop :=
  q.rating < p.rating ∨ (p.rating = q.rating ∧ q.points_per_game ≤ p.points_per_game)

instance : DecidableRel searchLE := fun a b =>
  inferInstanceAs
    (Decidable (b.rating < a.rating ∨ (a.rating = b.rating ∧ b.points_per_game ≤ a.points_per_game)))

instance : IsTotal Player searchLE :=
  ⟨fun a b => by
    rcases lt_trichotomy a.rating b.rating with h | h | h
    · exact Or.inr (Or.inl h)
    · rcases le_total b.points_per_game a.points_per_game with hp | hp
      · exact Or.inl (Or.inr ⟨h, hp⟩)
      · exact Or.inr (Or.inr ⟨h.symm, hp⟩)
    · exact Or.inl (Or.inl h)⟩

instance : IsTrans Player searchLE :=
  ⟨fun a b c hab hbc => by
    rcases hab with h1 | ⟨h1, h1'⟩ <;> rcases hbc with h2 | ⟨h2, h2'⟩
    · exact Or.inl (h2.trans h1)
    · exact Or.inl (h2 ▸ h1)
    · exact Or.inl (h1 ▸ h2)
    · exact Or.inr ⟨h1.trans h2, h2'.trans h1'⟩⟩

/-- `player_search` from `views.py`: each numeric threshold filters only
when supplied and parseable; the two shooting thresholds are divided by 100
before comparing against the stored 0-1 fraction (`NULL` fractions never
match); the result is ordered by rating then points, both descending. -/
def player_search (q : Query) (players : List Player) : List Player :=
  let team_id := q.team_id.getD "all"
  let position := q.position.getD "all"
  let ps0 := if team_id ≠ "all" then players.filter (fun p => p.teamName == team_id) else players
  let ps1 :=
    if !position.data.isEmpty && position ≠ "all" then
      ps0.filter (fun p => p.position == position)
    else ps0
  let ps2 := match get_float q.min_points with
    | some v => ps1.filter (fun p => decide (v ≤ p.points_per_game))
    | none => ps1
  let ps3 := match get_float q.min_rebounds with
    | some v => ps2.filter (fun p => decide (v ≤ p.rebounds_per_game))
    | none => ps2
  let ps4 := match get_float q.min_assists with
    | some v => ps3.filter (fun p => decide (v ≤ p.assists_per_game))
    | none => ps3
  let ps5 := match get_float q.min_minutes with
    | some v => ps4.filter (fun p => decide (v ≤ p.minutes_per_game))
    | none => ps4
  let ps6 := match get_float q.min_rating with
    | some v => ps5.filter (fun p => decide (v ≤ p.rating))
    | none => ps5
  let ps7 := match get_float q.max_fouls with
    | some v => ps6.filter (fun p => decide (p.fouls_per_game ≤ v))
    | none => ps6
  let ps8 := match get_float q.min_two_pt with
    | some v => ps7.filter (fun p =>
        match p.two_points_pct with
        | some w => decide (v / 100 ≤ w)
        | none => false)
    | none => ps7
  let ps9 := match get_float q.min_three_pt with
    | some v => ps8.filter (fun p =>
        match p.three_points_pct with
        | some w => decide (v / 100 ≤ w)
        | none => false)
    | none => ps8
  List.insertionSort searchLE ps9

/-- The filter clause contributed by one optional numeric threshold: when
the parsed threshold is absent the clause is vacuously true, otherwise the
supplied comparison must hold. -/
def stagePred (o : Option ℚ) (f : ℚ → Player → Bool) (p : Player) : Bool :=
  match o with
  | some v => f v p
  | none => true

/-- Claim-side description of the search contract: a player belongs to the
result exactly when it passes the team and position selectors and every
supplied numeric threshold — the five minimums, the fouls maximum
(`≤`-direction), and the two shooting minimums divided by 100 and compared
against the stored 0-1 fraction (`NULL` never matches). Stated as one
conjunction to be compared against the sequential filter pipeline of
`player_search`. -/
def satisfiesFilters (q : Query) (p : Player) : Bool :=
  (if (q.team_id.getD "all") ≠ "all" then p.teamName == q.team_id.getD "all" else true) &&
  (if !(q.position.getD "all").data.isEmpty && (q.position.getD "all") ≠ "all" then
    p.position == q.position.getD "all" else true) &&
  stagePred (get_float q.min_points) (fun v p => decide (v ≤ p.points_per_game)) p &&
  stagePred (get_float q.min_rebounds) (fun v p => decide (v ≤ p.rebounds_per_game)) p &&
  stagePred (get_float q.min_assists) (fun v p => decide (v ≤ p.assists_per_game)) p &&
  stagePred (get_float q.min_minutes) (fun v p => decide (v ≤ p.minutes_per_game)) p &&
  stagePred (get_float q.min_rating) (fun v p => decide (v ≤ p.rating)) p &&
  stagePred (get_float q.max_fouls) (fun v p => decide (p.fouls_per_game ≤ v)) p &&
  stagePred (get_float q.min_two_pt)
    (fun v p => match p.two_points_pct with | some w => decide (v / 100 ≤ w) | none => false) p &&
  stagePred (get_float q.min_three_pt)
    (fun v p => match p.three_points_pct with | some w => decide (v / 100 ≤ w) | none => false) p

/-- Column labels produced by re-reading a sheet with the detected header
row: a blank (`NaN`) header cell becomes the pandas placeholder
`Unnamed: k` for its position, any other cell its string form. -/
def rereadCols (headerRow : List Cell) : List String :=
  headerRow.enum.map (fun ic =>
    match ic.2 with
    | Cell.null => "Unnamed: " ++ toString ic.1
    | c => cellStr c)

/-- Whether a column label is a pandas auto-generated placeholder. -/
def isUnnamed (s : String) : Bool := s.data.take 7 == "Unnamed".data

/-- Look up one candidate header in the row, the way `pick` builds its
lowercase dictionary: the cleaned candidate is compared against cleaned
column labels, later duplicates shadowing earlier ones. -/
def pickOne (cols : List String) (cells : List Cell) (cand : String) : Option Cell :=
  let key := cleanLabel cand
  match (cols.enum.filter (fun ic => cleanLabel ic.2 == key)).getLast? with
  | some ic => some (cells.getD ic.1 Cell.null)
  | none => none

/-- `pick` from `import_players.py`: first candidate with a matching column
wins; no match at all behaves as `None`. -/
def pick (cols : List String) (cells : List Cell) (cands : List String) : Cell :=
  (cands.findSome? (pickOne cols cells)).getD Cell.null

/-- Whether a cell is non-null, modelling pandas `notna`. -/
def cellNotNull : Cell → Bool
  | .null => false
  | _ => true

/-- The exact column labels tried for the empty-name row filter. -/
def CANON_NAME_COLS : List String := ["Player", "Players", "Name", "Player Name", "Full Name"]

/-- One row of the per-sheet loop of `Command.handle`: resolve the name
(falsy or NaN skips the row), then extract every field with tolerant header
matching and lenient coercion. -/
def parseRow (team : String) (cols : List String) (r : List Cell) : Option Player :=
  let nameCell := pick cols r CANON_NAME_COLS
  if cellFalsy nameCell then none
  else
    some
      { teamName := team
        name := pyStrip (cellStr nameCell)
        number := as_int (pick cols r ["Number", "#", "No"]) 0
        position := norm_pos (pick cols r ["Position", "Pos"])
        games := as_int (pick cols r ["Games", "GP"]) 0
        minutes_per_game := as_float (pick cols r ["Minutes per game", "Min", "MIN", "Minutes"]) 0
        points_per_game := as_float (pick cols r ["Points per game", "PTS", "PPG"]) 0
        rebounds_per_game := as_float (pick cols r ["Rebounds per game", "REB", "RPG"]) 0
        assists_per_game := as_float (pick cols r ["Assists per game", "AST", "APG"]) 0
        steals_per_game := as_float (pick cols r ["Steals per game", "STL", "SPG"]) 0
        blocks_per_game := as_float (pick cols r ["Blocks per game", "BLK", "BPG"]) 0
        rating := as_float (pick cols r ["Rating", "Eff", "EFF"]) 0
        fouls_per_game := as_float (pick cols r ["Fouls per game", "Fouls"]) 0
        turnovers_per_game := as_float (pick cols r ["Turnovers per game", "Turnovers", "TOV"]) 0
        two_points_pct := some (pct01 (pick cols r ["2 points %", "2PT%", "2PT %", "Two Points %"]))
        three_points_pct := some (pct01 (pick cols r ["3 points %", "3PT%", "3PT %", "Three Points %"])) }

/-- The per-sheet body of `Command.handle`: detect the header row, re-read
with it, drop placeholder columns, apply the name-column validity gate
(empty result when it fails), drop empty-name rows, and parse the rest. -/
def processSheet (sheetName : String) (raw : List (List Cell)) : List Player :=
  let hdr := find_header_row raw
  let cols0 := rereadCols (raw.getD hdr [])
  let data0 := raw.drop (hdr + 1)
  let keep := (cols0.enum.filter (fun ic => !isUnnamed ic.2)).map (fun ic => ic.1)
  let cols := keep.map (fun i => cols0.getD i "")
  let rows : List (List Cell) :=
    data0.map (fun (r : List Cell) => keep.map (fun i => r.getD i Cell.null))
  let headers_norm := cols.map cleanLabel
  if !headers_norm.any (fun h => NAME_KEYS.contains h) then []
  else
    let team := pyStrip sheetName
    let rows1 :=
      match CANON_NAME_COLS.findSome?
          (fun k => if cols.contains k then some (cols.indexOf k) else none) with
      | some idx => rows.filter (fun (r : List Cell) => cellNotNull (r.getD idx Cell.null))
      | none => rows
    rows1.filterMap (parseRow team cols)

/-- The persisted state touched by the importer: `Team` rows (by name) and
`Player` rows. -/
structure DB where
  teams : List String
  players : List Player
deriving DecidableEq, Repr

/-- One iteration of the sheet loop: get-or-create the team named after the
trimmed sheet name (this happens before the validity gate), then append the
players the sheet yields. -/
def importStep (d : DB) (sheet : String × List (List Cell)) : DB :=
  let tname := pyStrip sheet.1
  { teams := if tname ∈ d.teams then d.teams else d.teams ++ [tname]
    players := d.players ++ processSheet sheet.1 sheet.2 }

/-- The sheet loop of `Command.handle`. -/
def importSheets (wb : List (String × List (List Cell))) (db : DB) : DB :=
  wb.foldl importStep db

/-- The body of `Command.handle` after the workbook was read successfully:
optional global reset of all `Player` rows, then the sheet loop. -/
def importBook (reset : Bool) (wb : List (String × List (List Cell))) (db : DB) : DB :=
  importSheets wb (if reset then { db with players := [] } else db)

/-- `Command.handle`: `none` models a workbook that cannot be read, which
raises `CommandError` before anything else runs. -/
def handleCommand (reset : Bool) (wb : Option (List (String × List (List Cell))))
    (db : DB) : Except String DB :=
  match wb with
  | none => Except.error "Failed to read Excel"
  | some book => Except.ok (importBook reset book db)

/-- The `transaction.atomic` wrapper around `handle`: an escaping exception
rolls the database back to its pre-import state. -/
def runImport (reset : Bool) (wb : Option (List (String × List (List Cell))))
    (db : DB) : DB :=
  match handleCommand reset wb db with
  | .ok d => d
  | .error _ => db

/-- Convenience constructor for test players: name, points, rebounds,
assists, with every other statistic zeroed. -/
def mkP (nm : String) (pts reb ast : ℚ) : Player :=
  { teamName := "T", name := nm, number := 0, position := "Guard", games := 0,
    minutes_per_game := 0, points_per_game := pts, rebounds_per_game := reb,
    assists_per_game := ast, steals_per_game := 0, blocks_per_game := 0,
    rating := 0, fouls_per_game := 0, turnovers_per_game := 0,
    two_points_pct := some 0, three_points_pct := some 0 }

/-- Example player A of the spec's fallback-report test vector. -/
def exA : Player := mkP "A" 20 5 3

/-- Example player B of the spec's fallback-report test vector. -/
def exB : Player := mkP "B" 10 12 2

/-- Example player C of the spec's fallback-report test vector. -/
def exC : Player := mkP "C" 8 4 9

/-- A raw sheet whose first three rows are non-header noise and whose fourth
row carries the literal header cell `Player`. -/
def noiseSheet : List (List Cell) :=
  [[Cell.str "junk", Cell.null], [Cell.str "more junk", Cell.str "noise"],
   [Cell.null, Cell.str "x"], [Cell.str "Player", Cell.str "PTS"],
   [Cell.str "Alice", Cell.num 20]]

/-- A sheet with headers but no recognisable name column, so the validity
gate skips it. -/
def gateSheet : List (List Cell) :=
  [[Cell.str "Foo", Cell.str "Bar"], [Cell.str "x", Cell.str "y"]]

/-- A minimal valid one-team workbook with a single player row. -/
def wbEx : List (String × List (List Cell)) :=
  [("S", [[Cell.str "Player", Cell.str "PTS"], [Cell.str "Alice", Cell.num 20]])]

/-- A database that already holds a team and a player, used to observe that
a failed import leaves it untouched. -/
def dbEx : DB := { teams := ["T"], players := [exA] }

/-- A player whose shooting percentages are absent (`NULL`) despite strong
other statistics. -/
def nullShooter : Player :=
  { mkP "N" 30 10 10 with two_points_pct := none, three_points_pct := none }

/-- A player with both shooting percentages present. -/
def shooterEx : Player :=
  { mkP "S" 5 1 1 with two_points_pct := some (61 / 100), three_points_pct := some (2 / 5) }

section Lemmas

variable {key : Player → ℚ}

/-- Folding `maxStep` never leaves the candidate pool. -/
lemma foldl_maxStep_mem (key : Player → ℚ) (t : List Player) :
    ∀ b, t.foldl (maxStep key) b ∈ b :: t := by
  induction t with
  | nil => intro b; simp
  | cons x xs ih =>
    intro b
    have h := ih (maxStep key b x)
    rcases List.mem_cons.mp h with h' | h'
    · rw [List.foldl_cons, h']
      unfold maxStep
      split <;> simp
    · exact List.mem_cons_of_mem _ (List.mem_cons_of_mem _ h')

/-- Folding `maxStep` dominates the key of every candidate seen. -/
lemma foldl_maxStep_ge (key : Player → ℚ) (t : List Player) :
    ∀ b, ∀ q ∈ b :: t, key q ≤ key (t.foldl (maxStep key) b) := by
  induction t with
  | nil =>
    intro b q hq
    have h : q = b := by simpa using hq
    subst h
    simp
  | cons x xs ih =>
    intro b q hq
    have step_ge_b : key b ≤ key (maxStep key b x) := by
      unfold maxStep; split
      · exact le_of_lt (by assumption)
      · exact le_refl _
    have step_ge_x : key x ≤ key (maxStep key b x) := by
      unfold maxStep; split
      · exact le_refl _
      · exact le_of_not_lt (by assumption)
    rcases List.mem_cons.mp hq with h | h
    · rw [h]
      exact le_trans step_ge_b (ih (maxStep key b x) _ (List.mem_cons_self _ _))
    · rcases List.mem_cons.mp h with h' | h'
      · rw [h']
        exact le_trans step_ge_x (ih (maxStep key b x) _ (List.mem_cons_self _ _))
      · exact ih (maxStep key b x) q (List.mem_cons_of_mem _ h')

/-- `pyMaxKey` returns a maximising member of a nonempty list. -/
lemma pyMaxKey_spec (key : Player → ℚ) (l : List Player) (d : Player) (h : l ≠ []) :
    pyMaxKey key l d ∈ l ∧ ∀ q ∈ l, key q ≤ key (pyMaxKey key l d) := by
  cases l with
  | nil => exact absurd rfl h
  | cons a t => exact ⟨foldl_maxStep_mem key t a, foldl_maxStep_ge key t a⟩

/-- Folding `maxStep` from an accumulator that already dominates the rest
keeps the accumulator. -/
lemma foldl_maxStep_stay (key : Player → ℚ) (l : List Player) (x : Player)
    (h : ∀ y ∈ l, key y ≤ key x) : l.foldl (maxStep key) x = x := by
  induction l with
  | nil => rfl
  | cons y t ih =>
    have hy : maxStep key x y = x := by
      unfold maxStep
      exact if_neg (not_lt.mpr (h y (List.mem_cons_self _ _)))
    rw [List.foldl_cons, hy]
    exact ih (fun z hz => h z (List.mem_cons_of_mem _ hz))

/-- Folding `maxStep` over `l1 ++ x :: l2` lands on `x` when everything
before `x` (and the start) is strictly below it and everything after is at
most it. -/
lemma foldl_maxStep_first (key : Player → ℚ) (l1 : List Player) (x : Player)
    (l2 : List Player) :
    ∀ acc, key acc < key x → (∀ y ∈ l1, key y < key x) → (∀ y ∈ l2, key y ≤ key x) →
      (l1 ++ x :: l2).foldl (maxStep key) acc = x := by
  induction l1 with
  | nil =>
    intro acc hacc _ h2
    have hx : maxStep key acc x = x := by unfold maxStep; exact if_pos hacc
    rw [List.nil_append, List.foldl_cons, hx]
    exact foldl_maxStep_stay key l2 x h2
  | cons a l1' ih =>
    intro acc hacc h1 h2
    have ha : key a < key x := h1 a (List.mem_cons_self _ _)
    have hstep : key (maxStep key acc a) < key x := by
      unfold maxStep; split
      · exact ha
      · exact hacc
    rw [List.cons_append, List.foldl_cons]
    exact ih (maxStep key acc a) hstep (fun y hy => h1 y (List.mem_cons_of_mem _ hy)) h2

/-- Python `max` ties go to the first element attaining the maximum. -/
lemma pyMaxKey_first_wins (key : Player → ℚ) (l1 : List Player) (x : Player)
    (l2 : List Player) (d : Player)
    (h1 : ∀ y ∈ l1, key y < key x) (h2 : ∀ y ∈ l2, key y ≤ key x) :
    pyMaxKey key (l1 ++ x :: l2) d = x := by
  cases l1 with
  | nil =>
    show l2.foldl (maxStep key) x = x
    exact foldl_maxStep_stay key l2 x h2
  | cons a l1' =>
    show (l1' ++ x :: l2).foldl (maxStep key) a = x
    exact foldl_maxStep_first key l1' x l2 a (h1 a (List.mem_cons_self _ _))
      (fun y hy => h1 y (List.mem_cons_of_mem _ hy)) h2

/-- The active subset of a nonempty roster is nonempty. -/
lemma fallbackActive_ne_nil (p0 : Player) (rest : List Player) :
    fallbackActive (p0 :: rest) ≠ [] := by
  simp only [fallbackActive]
  split
  · exact List.cons_ne_nil p0 rest
  · rename_i h
    intro he
    rw [he] at h
    exact h rfl

/-- The head of a descending sort is a maximising member of the input. -/
lemma sortDescBy_head (key : Player → ℚ) (l : List Player) (p : Player)
    (h : (sortDescBy key l).head? = some p) :
    p ∈ l ∧ ∀ q ∈ l, key q ≤ key p := by
  have hs : List.Sorted (descBy key) (sortDescBy key l) :=
    List.sorted_insertionSort (descBy key) l
  have hp : (sortDescBy key l).Perm l := List.perm_insertionSort (descBy key) l
  cases e : sortDescBy key l with
  | nil => rw [e] at h; cases h
  | cons a t =>
    rw [e] at h hs hp
    have hpa : a = p := by
      have : some a = some p := h
      exact Option.some.inj this
    subst hpa
    have hrest : ∀ b ∈ t, descBy key a b := (List.sorted_cons.mp hs).1
    refine ⟨hp.subset (List.mem_cons_self _ _), fun q hq => ?_⟩
    rcases List.mem_cons.mp (hp.symm.subset hq) with h' | h'
    · rw [h']
    · exact hrest q h'

/-- The sheet loop appends exactly the parsed players of each sheet, in
order, to whatever players the database already holds. -/
lemma importSheets_players (wb : List (String × List (List Cell))) :
    ∀ db, (importSheets wb db).players =
      db.players ++ (wb.map (fun sr => processSheet sr.1 sr.2)).flatten := by
  induction wb with
  | nil => intro db; simp [importSheets]
  | cons s t ih =>
    intro db
    have h1 : importSheets (s :: t) db = importSheets t (importStep db s) := rfl
    rw [h1, ih]
    simp [importStep]

/-- The sheet loop never removes a team. -/
lemma importSheets_teams_mono (wb : List (String × List (List Cell))) :
    ∀ db x, x ∈ db.teams → x ∈ (importSheets wb db).teams := by
  induction wb with
  | nil => intro db x hx; exact hx
  | cons s t ih =>
    intro db x hx
    have h1 : importSheets (s :: t) db = importSheets t (importStep db s) := rfl
    rw [h1]
    refine ih _ x ?_
    show x ∈ (if pyStrip s.1 ∈ db.teams then db.teams else db.teams ++ [pyStrip s.1])
    split
    · exact hx
    · exact List.mem_append_left _ hx

/-- Every sheet of the workbook leaves its (trimmed) team name in the
database, whether or not the sheet produced players. -/
lemma importSheets_teams_mem (wb : List (String × List (List Cell))) :
    ∀ db s raw, (s, raw) ∈ wb → pyStrip s ∈ (importSheets wb db).teams := by
  induction wb with
  | nil => intro db s raw h; cases h
  | cons hd t ih =>
    intro db s raw h
    have h1 : importSheets (hd :: t) db = importSheets t (importStep db hd) := rfl
    rw [h1]
    rcases List.mem_cons.mp h with h' | h'
    · have hs : pyStrip s ∈ (importStep db hd).teams := by
        have : hd.1 = s := by rw [← h']
        rw [← this]
        show pyStrip hd.1 ∈
          (if pyStrip hd.1 ∈ db.teams then db.teams else db.teams ++ [pyStrip hd.1])
        split
        · assumption
        · exact List.mem_append_right _ (List.mem_singleton.mpr rfl)
      exact importSheets_teams_mono t _ _ hs
    · exact ih _ s raw h'

/-- Characterisation of the header-scan loop: either it finds the first
recognisable row within the fuel window, or no row in the window
qualifies. -/
lemma findHdrAux_cases (df : List (List Cell)) :
    ∀ fuel i,
      (∃ j, findHdrAux df fuel i = some (i + j) ∧ j < min fuel df.length ∧
        rowHasNameKey (df.getD j []) ∧ ∀ k < j, ¬rowHasNameKey (df.getD k [])) ∨
      (findHdrAux df fuel i = none ∧
        ∀ k < min fuel df.length, ¬rowHasNameKey (df.getD k [])) := by
  induction df with
  | nil =>
    intro fuel i
    refine Or.inr ⟨?_, ?_⟩
    · cases fuel <;> rfl
    · intro k hk; simp at hk
  | cons r rs ih =>
    intro fuel i
    cases fuel with
    | zero => exact Or.inr ⟨rfl, by intro k hk; simp at hk⟩
    | succ fuel' =>
      by_cases hr : rowHasNameKey r
      · refine Or.inl ⟨0, ?_, ?_, ?_, ?_⟩
        · show (if rowHasNameKey r then some i else findHdrAux rs fuel' (i + 1)) = some (i + 0)
          rw [if_pos hr, Nat.add_zero]
        · have h0 : 0 < min (fuel' + 1) (rs.length + 1) := by
            rw [Nat.succ_min_succ]
            exact Nat.succ_pos _
          simp only [List.length_cons]
          exact h0
        · exact hr
        · intro k hk; cases hk
      · have hstep : findHdrAux (r :: rs) (fuel' + 1) i = findHdrAux rs fuel' (i + 1) := by
          show (if rowHasNameKey r then some i else findHdrAux rs fuel' (i + 1)) =
            findHdrAux rs fuel' (i + 1)
          rw [if_neg hr]
        rcases ih fuel' (i + 1) with ⟨j, hfind, hj, hrow, hbefore⟩ | ⟨hfind, hnone⟩
        · refine Or.inl ⟨j + 1, ?_, ?_, ?_, ?_⟩
          · rw [hstep, hfind]
            congr 1
            omega
          · have : (r :: rs).length = rs.length + 1 := rfl
            rw [this, Nat.succ_min_succ]
            omega
          · simpa using hrow
          · intro k hk
            cases k with
            | zero => simpa using hr
            | succ k' =>
              have : k' < j := by omega
              simpa using hbefore k' this
        · refine Or.inr ⟨by rw [hstep, hfind], ?_⟩
          intro k hk
          cases k with
          | zero => simpa using hr
          | succ k' =>
            have hlen : (r :: rs).length = rs.length + 1 := rfl
            rw [hlen, Nat.succ_min_succ] at hk
            have : k' < min fuel' rs.length := by omega
            simpa using hnone k' this

/-- A conditional queryset filter is a filter by a conditional predicate. -/
lemma stage_if (c : Prop) [Decidable c] (f : Player → Bool) (l : List Player) :
    (if c then l.filter f else l) = l.filter (fun p => if c then f p else true) := by
  split <;> rename_i h <;> simp [h]

/-- An optional-threshold queryset filter is a filter by its `stagePred`
clause. -/
lemma stage_opt (o : Option ℚ) (f : ℚ → Player → Bool) (l : List Player) :
    (match o with | some v => l.filter (f v) | none => l) = l.filter (stagePred o f) := by
  cases o with
  | none =>
    rw [show stagePred none f = fun _ => true from rfl, List.filter_true]
  | some v =>
    rfl

/-- The sequential filter pipeline of `player_search` is, for every
request, the sort of one filter by the conjunction of all supplied
clauses. -/
lemma player_search_eq_sorted_filter (q : Query) (players : List Player) :
    player_search q players =
      List.insertionSort searchLE (players.filter (satisfiesFilters q)) := by
  simp only [player_search]
  congr 1
  rw [stage_if, stage_if, stage_opt, stage_opt, stage_opt, stage_opt, stage_opt,
    stage_opt, stage_opt, stage_opt]
  simp only [List.filter_filter]
  apply List.filter_congr
  intro p _
  simp only [satisfiesFilters]
  ac_rfl

end Lemmas

/-- C1: `pct01` parses leniently (default 0), divides by 100 when the value
exceeds 1, and clamps to `[0,1]`; hence every output lies in `[0,1]`, and
`pct01 61 = pct01 0.61 = 0.61`. -/
theorem c1_pct01_range_and_examples :
    (∀ v : Cell, 0 ≤ pct01 v ∧ pct01 v ≤ 1) ∧
    pct01 (Cell.num 61) = 61 / 100 ∧
    pct01 (Cell.num (61 / 100)) = 61 / 100 := by
  refine ⟨fun v => ?_, by decide, by decide⟩
  simp only [pct01]
  exact ⟨le_max_left 0 _, max_le (by norm_num) (min_le_left _ _)⟩

/-- C1 witness: the range property evaluated at the concrete input 61. -/
theorem c1_pct01_range_and_examples_witness :
    0 ≤ pct01 (Cell.num 61) ∧ pct01 (Cell.num 61) ≤ 1 :=
  c1_pct01_range_and_examples.1 (Cell.num 61)

/-- C2 counterexample: on an empty roster the richer local variant
`build_scouting_report` does not return the fallback generator's sentence
"No player statistics available yet for Lakers." — it uses different
wording. -/
theorem c2_counterexample :
    build_scouting_report "Lakers" [] ≠ "No player statistics available yet for Lakers." := by
  decide

/-- C2 (amended): on an empty roster the deterministic fallback returns
exactly "No player statistics available yet for {team}.", while
`build_scouting_report` returns the distinct sentence "No player data is
available yet for {team}.". -/
theorem c2_empty_roster_sentences :
    (∀ team, fallback_report team [] =
      "No player statistics available yet for " ++ team ++ ".") ∧
    (∀ team, build_scouting_report team [] =
      "No player data is available yet for " ++ team ++ ".") ∧
    fallback_report "Lakers" [] = "No player statistics available yet for Lakers." :=
  ⟨fun _ => rfl, fun _ => rfl, by decide⟩

/-- C2 witness: the amended sentences evaluated for team Lakers. -/
theorem c2_empty_roster_sentences_witness :
    fallback_report "Lakers" [] = "No player statistics available yet for " ++ "Lakers" ++ "." :=
  c2_empty_roster_sentences.1 "Lakers"

/-- C3: on a nonempty roster the fallback report is rendered from the
active subset (positive minutes or points, else the whole roster): the
three named leaders are maximising members of that subset (with Python
`max` ties going to the first element attaining the maximum), and the
averages are the arithmetic means over the subset; on the spec's test
vector A(20,5,3), B(10,12,2), C(8,4,9) the rendered text names A, B, C with
averages 12.7, 7.0 and 4.7. -/
theorem c3_fallback_report_structure :
    (fallback_report "T" [exA, exB, exC] =
      "T lean on A for scoring (20.0 ppg), B on the boards (12.0 rpg), and C for playmaking (9.0 apg). Across their active rotation they average roughly 12.7 points, 7.0 rebounds, and 4.7 assists per game.") ∧
    (∀ (key : Player → ℚ) (l1 : List Player) (x : Player) (l2 : List Player) (d : Player),
      (∀ y ∈ l1, key y < key x) → (∀ y ∈ l2, key y ≤ key x) →
      pyMaxKey key (l1 ++ x :: l2) d = x) ∧
    (∀ (team : String) (p0 : Player) (rest : List Player),
      ∃ tp tr ta,
        tp ∈ fallbackActive (p0 :: rest) ∧ tr ∈ fallbackActive (p0 :: rest) ∧
        ta ∈ fallbackActive (p0 :: rest) ∧
        (∀ q ∈ fallbackActive (p0 :: rest), q.points_per_game ≤ tp.points_per_game) ∧
        (∀ q ∈ fallbackActive (p0 :: rest), q.rebounds_per_game ≤ tr.rebounds_per_game) ∧
        (∀ q ∈ fallbackActive (p0 :: rest), q.assists_per_game ≤ ta.assists_per_game) ∧
        fallback_report team (p0 :: rest) =
          renderFallback team tp tr ta
            (avgOpt ((fallbackActive (p0 :: rest)).map (fun p => some p.points_per_game)))
            (avgOpt ((fallbackActive (p0 :: rest)).map (fun p => some p.rebounds_per_game)))
            (avgOpt ((fallbackActive (p0 :: rest)).map (fun p => some p.assists_per_game)))) := by
  refine ⟨by decide, pyMaxKey_first_wins, ?_⟩
  intro team p0 rest
  have hne := fallbackActive_ne_nil p0 rest
  obtain ⟨hp_mem, hp_max⟩ :=
    pyMaxKey_spec (fun p => p.points_per_game) (fallbackActive (p0 :: rest)) p0 hne
  obtain ⟨hr_mem, hr_max⟩ :=
    pyMaxKey_spec (fun p => p.rebounds_per_game) (fallbackActive (p0 :: rest)) p0 hne
  obtain ⟨ha_mem, ha_max⟩ :=
    pyMaxKey_spec (fun p => p.assists_per_game) (fallbackActive (p0 :: rest)) p0 hne
  exact ⟨_, _, _, hp_mem, hr_mem, ha_mem, hp_max, hr_max, ha_max, rfl⟩

/-- C3 witness: Python `max` at a concrete tie-free split returns the
designated element. -/
theorem c3_fallback_report_structure_witness :
    pyMaxKey (fun p => p.points_per_game) ([exB] ++ exA :: [exC]) exB = exA :=
  c3_fallback_report_structure.2.1 (fun p => p.points_per_game) [exB] exA [exC] exB
    (by decide) (by decide)

/-- C4: header detection scans at most the first `min(10, rows)` rows and
returns the first index whose row contains a recognised name label, or 0
when the window has none; on a sheet with three noise rows before a
`Player` row it returns 3. -/
theorem c4_find_header_row :
    find_header_row noiseSheet = 3 ∧
    ∀ df : List (List Cell),
      (rowHasNameKey (df.getD (find_header_row df) []) ∧
        find_header_row df < min 10 df.length ∧
        ∀ k < find_header_row df, ¬rowHasNameKey (df.getD k [])) ∨
      (find_header_row df = 0 ∧
        ∀ k < min 10 df.length, ¬rowHasNameKey (df.getD k [])) := by
  refine ⟨by decide, fun df => ?_⟩
  rcases findHdrAux_cases df (min 10 df.length) 0 with ⟨j, hfind, hj, hrow, hbefore⟩ | ⟨hfind, hnone⟩
  · left
    have hval : find_header_row df = j := by
      unfold find_header_row
      rw [hfind]
      simp
    rw [hval]
    refine ⟨hrow, lt_of_lt_of_le hj (min_le_left _ _), hbefore⟩
  · right
    have hval : find_header_row df = 0 := by
      unfold find_header_row
      rw [hfind]
      rfl
    have hmm : min (min 10 df.length) df.length = min 10 df.length :=
      min_eq_left (min_le_right _ _)
    rw [hmm] at hnone
    exact ⟨hval, hnone⟩

/-- C4 witness: the characterisation instantiated at the concrete noise
sheet. -/
theorem c4_find_header_row_witness :
    (rowHasNameKey (noiseSheet.getD (find_header_row noiseSheet) []) ∧
      find_header_row noiseSheet < min 10 noiseSheet.length ∧
      ∀ k < find_header_row noiseSheet, ¬rowHasNameKey (noiseSheet.getD k [])) ∨
    (find_header_row noiseSheet = 0 ∧
      ∀ k < min 10 noiseSheet.length, ¬rowHasNameKey (noiseSheet.getD k [])) :=
  c4_find_header_row.2 noiseSheet

/-- C6: `generate_team_report` is a total function into strings, and every
failure mode of the external path — missing credential, a raised exception,
or blank returned text — yields byte-for-byte the deterministic fallback
output. -/
theorem c6_generate_team_report_fallback :
    ∀ (env : Env) (team : String) (players : List Player),
      (env.apiKey = "" → generate_team_report env team players = fallback_report team players) ∧
      (∀ e, env.callResult = Except.error e →
        generate_team_report env team players = fallback_report team players) ∧
      (∀ t, env.callResult = Except.ok t → pyStrip t = "" →
        generate_team_report env team players = fallback_report team players) := by
  intro env team players
  refine ⟨fun h => ?_, fun e he => ?_, fun t ht hs => ?_⟩
  · simp [generate_team_report, h]
  · by_cases hk : env.apiKey = ""
    · simp [generate_team_report, hk]
    · simp [generate_team_report, hk, he]
  · by_cases hk : env.apiKey = ""
    · simp [generate_team_report, hk]
    · simp [generate_team_report, hk, ht, hs]

/-- C6 witness: a concrete raising environment falls back. -/
theorem c6_generate_team_report_fallback_witness :
    generate_team_report { apiKey := "sk-test", callResult := Except.error () } "Lakers" [exA] =
      fallback_report "Lakers" [exA] :=
  (c6_generate_team_report_fallback
    { apiKey := "sk-test", callResult := Except.error () } "Lakers" [exA]).2.1 () rfl

/-- C7: the import is one atomic unit: an unreadable workbook raises before
anything runs, and any command error leaves the persisted state exactly as
it was — in particular the reset-mode deletion does not survive. -/
theorem c7_import_atomicity :
    (∀ (reset : Bool) (db : DB), runImport reset none db = db) ∧
    (∀ (reset : Bool) (wb : Option (List (String × List (List Cell)))) (db : DB) (e : String),
      handleCommand reset wb db = Except.error e → runImport reset wb db = db) := by
  constructor
  · intro reset db; rfl
  · intro reset wb db e h
    unfold runImport
    rw [h]

/-- C7 witness: a failed read with the reset flag set leaves a populated
database untouched. -/
theorem c7_import_atomicity_witness :
    runImport true none dbEx = dbEx :=
  c7_import_atomicity.2 true none dbEx "Failed to read Excel" rfl

/-- C5: for every search request the result contains exactly the players
satisfying all supplied filters — each of the eight numeric thresholds is
applied only when supplied and parseable (only the parsed value matters, so
an unparseable or empty value behaves as if the threshold were absent), the
two shooting minimums are divided by 100 before comparison with the stored
0-1 fraction, the fouls threshold is a maximum — and it is ordered by
rating descending then points descending; concretely, with only
`min_points=15` the result is exactly the players with at least 15 points
per game. -/
theorem c5_player_search_filters :
    (∀ (q : Query) (players : List Player),
      (player_search q players).Perm (players.filter (satisfiesFilters q)) ∧
      List.Sorted searchLE (player_search q players)) ∧
    (∀ (q : Query) (players : List Player) (p : Player),
      p ∈ player_search q players ↔ p ∈ players ∧ satisfiesFilters q p = true) ∧
    (∀ (q q' : Query) (players : List Player),
      q.team_id = q'.team_id → q.position = q'.position →
      get_float q.min_points = get_float q'.min_points →
      get_float q.min_rebounds = get_float q'.min_rebounds →
      get_float q.min_assists = get_float q'.min_assists →
      get_float q.min_minutes = get_float q'.min_minutes →
      get_float q.min_rating = get_float q'.min_rating →
      get_float q.max_fouls = get_float q'.max_fouls →
      get_float q.min_two_pt = get_float q'.min_two_pt →
      get_float q.min_three_pt = get_float q'.min_three_pt →
      player_search q players = player_search q' players) ∧
    (∀ players : List Player,
      (player_search { min_points := some "15" } players).Perm
        (players.filter (fun p => decide ((15 : ℚ) ≤ p.points_per_game)))) ∧
    (∀ players : List Player,
      player_search { min_points := some "abc" } players = player_search {} players) ∧
    (∀ players : List Player,
      (player_search { min_two_pt := some "50" } players).Perm
        (players.filter (fun p =>
          match p.two_points_pct with
          | some w => decide ((1 / 2 : ℚ) ≤ w)
          | none => false))) := by
  have h15 : ∀ players : List Player,
      player_search { min_points := some "15" } players =
        List.insertionSort searchLE
          (players.filter (fun p => decide ((15 : ℚ) ≤ p.points_per_game))) :=
    fun _ => rfl
  have h50 : ∀ players : List Player,
      player_search { min_two_pt := some "50" } players =
        List.insertionSort searchLE
          (players.filter (fun p =>
            match p.two_points_pct with
            | some w => decide ((1 / 2 : ℚ) ≤ w)
            | none => false)) :=
    fun _ => rfl
  refine ⟨fun q players => ⟨?_, ?_⟩, fun q players p => ?_,
    fun q q' players h1 h2 h3 h4 h5 h6 h7 h8 h9 h10 => ?_,
    fun players => ?_, fun players => rfl, fun players => ?_⟩
  · rw [player_search_eq_sorted_filter]
    exact List.perm_insertionSort _ _
  · rw [player_search_eq_sorted_filter]
    exact List.sorted_insertionSort _ _
  · rw [player_search_eq_sorted_filter,
      (List.perm_insertionSort searchLE _).mem_iff]
    exact List.mem_filter
  · simp only [player_search, h1, h2, h3, h4, h5, h6, h7, h8, h9, h10]
  · rw [h15]
    exact List.perm_insertionSort _ _
  · rw [h50]
    exact List.perm_insertionSort _ _

/-- C5 witness: an unparseable threshold parses to `none`, so the search
coincides with the unfiltered one on a concrete queryset. -/
theorem c5_player_search_filters_witness :
    player_search { min_points := some "abc" } [exA] = player_search {} [exA] :=
  c5_player_search_filters.2.2.1 { min_points := some "abc" } {} [exA]
    rfl rfl (by decide) rfl rfl rfl rfl rfl rfl rfl

/-- C8: with the reset flag the second import of the same workbook
reproduces exactly the player rows of the first (so also the same count);
without it, importing twice from an initially empty player table doubles
the count. -/
theorem c8_reset_idempotence :
    (∀ (wb : List (String × List (List Cell))) (db : DB),
      (importBook true wb (importBook true wb db)).players =
        (importBook true wb db).players) ∧
    (∀ (wb : List (String × List (List Cell))) (db : DB), db.players = [] →
      (importBook false wb (importBook false wb db)).players.length =
        2 * (importBook false wb db).players.length) := by
  have hflat : ∀ (wb : List (String × List (List Cell))) (d : DB),
      (importBook true wb d).players = (wb.map (fun sr => processSheet sr.1 sr.2)).flatten := by
    intro wb d
    show (importSheets wb { d with players := [] }).players = _
    rw [importSheets_players]
    simp
  constructor
  · intro wb db
    rw [hflat, hflat]
  · intro wb db hdb
    have h1 : (importBook false wb db).players =
        (wb.map (fun sr => processSheet sr.1 sr.2)).flatten := by
      show (importSheets wb db).players = _
      rw [importSheets_players, hdb]
      simp
    have h2 : (importBook false wb (importBook false wb db)).players =
        (importBook false wb db).players ++ (wb.map (fun sr => processSheet sr.1 sr.2)).flatten := by
      show (importSheets wb (importBook false wb db)).players = _
      rw [importSheets_players]
    rw [h2, h1]
    simp [two_mul]

/-- C8 witness: doubling observed from the empty database on a concrete
one-sheet workbook. -/
theorem c8_reset_idempotence_witness :
    (importBook false wbEx (importBook false wbEx { teams := [], players := [] })).players.length =
      2 * (importBook false wbEx { teams := [], players := [] }).players.length :=
  c8_reset_idempotence.2 wbEx { teams := [], players := [] } rfl

/-- C9: the league shooting leaders maximise their percentage among players
whose field is present, and a player with an absent percentage is excluded
from the ranking rather than ranked as zero. -/
theorem c9_shooting_leaders :
    (∀ (players : List Player) (p : Player), best_two_pct players = some p →
      p.two_points_pct.isSome ∧ p ∈ players ∧
      ∀ q ∈ players, ∀ v, q.two_points_pct = some v → v ≤ p.two_points_pct.getD 0) ∧
    (∀ (players : List Player) (p : Player), best_three_pct players = some p →
      p.three_points_pct.isSome ∧ p ∈ players ∧
      ∀ q ∈ players, ∀ v, q.three_points_pct = some v → v ≤ p.three_points_pct.getD 0) ∧
    best_two_pct [nullShooter] = none ∧ best_three_pct [nullShooter] = none := by
  refine ⟨?_, ?_, by decide, by decide⟩
  · intro players p h
    obtain ⟨hmem, hmax⟩ := sortDescBy_head _ _ p h
    have hf := List.mem_filter.mp hmem
    refine ⟨by simpa using hf.2, hf.1, ?_⟩
    intro q hq v hv
    have hqf : q ∈ players.filter (fun r => r.two_points_pct.isSome) :=
      List.mem_filter.mpr ⟨hq, by simp [hv]⟩
    simpa [hv] using hmax q hqf
  · intro players p h
    obtain ⟨hmem, hmax⟩ := sortDescBy_head _ _ p h
    have hf := List.mem_filter.mp hmem
    refine ⟨by simpa using hf.2, hf.1, ?_⟩
    intro q hq v hv
    have hqf : q ∈ players.filter (fun r => r.three_points_pct.isSome) :=
      List.mem_filter.mpr ⟨hq, by simp [hv]⟩
    simpa [hv] using hmax q hqf

/-- C9 witness: the two-point characterisation instantiated on a concrete
singleton queryset. -/
theorem c9_shooting_leaders_witness :
    shooterEx.two_points_pct.isSome ∧ shooterEx ∈ [shooterEx] ∧
      ∀ q ∈ [shooterEx], ∀ v, q.two_points_pct = some v →
        v ≤ shooterEx.two_points_pct.getD 0 :=
  c9_shooting_leaders.1 [shooterEx] shooterEx (by decide)

/-- C10: every sheet's trimmed name becomes (or reuses) a Team row before
the validity gate runs, so a sheet skipped for lacking a name column still
leaves its Team behind with zero players. -/
theorem c10_team_created_before_gate :
    (∀ (reset : Bool) (wb : List (String × List (List Cell))) (db : DB)
        (s : String) (raw : List (List Cell)),
      (s, raw) ∈ wb → pyStrip s ∈ (importBook reset wb db).teams) ∧
    importBook false [("NoNames", gateSheet)] { teams := [], players := [] } =
      { teams := ["NoNames"], players := [] } := by
  constructor
  · intro reset wb db s raw h
    exact importSheets_teams_mem wb _ s raw h
  · decide

/-- C10 witness: the gate-skipped sheet's team name is persisted. -/
theorem c10_team_created_before_gate_witness :
    pyStrip "NoNames" ∈
      (importBook false [("NoNames", gateSheet)] { teams := [], players := [] }).teams :=
  c10_team_created_before_gate.1 false [("NoNames", gateSheet)]
    { teams := [], players := [] } "NoNames" gateSheet (by decide)

end LebStats

end LebStatsDevelopment
